import Mathlib

/-!
Verification of the wallet-signature authentication subsystem of the
EasySwapBackend repository, shallowly embedded in Lean 4.

Go strings are embedded as lists of byte values (`List Nat`), matching the
byte-wise way the Go source manipulates them.  Fallible Go functions that
return `(T, error)` are embedded as pairs `T × Option String`, with `none`
standing for a `nil` error, matching the `github.com/pkg/errors` semantics
used by the source (in particular `errors.Wrap(nil, msg)` returns `nil`).

The EIP-55 checksum routines `eip.ToCheckSumAddress` (EasySwapBase) and
`utils.ToValidateAddress` are not part of the visible sources; following the
spec they are modelled as the standard EIP-55 shape — a deterministic,
mixed-case rewrite that is a pure function of the lowercase hex digits —
parametrized by the per-nibble hash-bit oracle, so the development covers
both the intended case where the two passes agree and the spec's open
question of two coexisting, possibly different checksum implementations.
-/

namespace EasySwap

/-- Go byte strings, embedded as lists of byte values. -/
abbrev GoStr := List Nat

/-- ASCII lowercase conversion on a byte, as Go strings.ToLower acts on
the ASCII subset (all decisive strings here are ASCII). -/
def goToLower (b : Nat) : Nat := if 65 ≤ b ∧ b ≤ 90 then b + 32 else b

/-- ASCII uppercase conversion on a byte, as Go strings.ToUpper acts on
the ASCII subset. -/
def goToUpper (b : Nat) : Nat := if 97 ≤ b ∧ b ≤ 122 then b - 32 else b

/-- go-ethereum common.isHexCharacter: 0-9, a-f, A-F. -/
def isHexChar (b : Nat) : Bool :=
  decide ((48 ≤ b ∧ b ≤ 57) ∨ (97 ≤ b ∧ b ≤ 102) ∨ (65 ≤ b ∧ b ≤ 70))

/-- go-ethereum common.has0xPrefix: first byte is "0", second is "x" or "X". -/
def has0xPrefix (s : GoStr) : Bool :=
  match s with
  | b0 :: b1 :: _ => b0 == 48 && (b1 == 120 || b1 == 88)
  | _ => false

/-- go-ethereum common.isHex: even length and every byte a hex character. -/
def isHexStr (s : GoStr) : Bool := s.length % 2 == 0 && s.all isHexChar

/-- go-ethereum common.IsHexAddress: after stripping an optional 0x/0X
prefix, exactly 40 (= 2 * AddressLength) hex characters. -/
def isHexAddress (s : GoStr) : Bool :=
  let s' := if has0xPrefix s then s.drop 2 else s
  s'.length == 40 && isHexStr s'

/-- pkg/errors errors.New: always a non-nil error. -/
def errorsNew (msg : String) : Option String := some msg

/-- pkg/errors errors.Wrap: returns nil when the wrapped error is nil,
otherwise a non-nil error carrying both messages. -/
def errorsWrap : Option String → String → Option String
  | none, _ => none
  | some e, msg => some (msg ++ ": " ++ e)

/-- Index-aware map over a byte string, starting at index i. -/
def mapIdxFrom (f : Nat → Nat → Nat) : Nat → GoStr → GoStr
  | _, [] => []
  | i, b :: bs => f i b :: mapIdxFrom f (i + 1) bs

/-- Per-nibble hash-bit oracle of an EIP-55 checksum implementation:
given the lowercase address body and a position, decide uppercase. -/
abbrev HashBits := GoStr → Nat → Bool

/-- One byte of the EIP-55 rewrite: digits unchanged; letters uppercased
exactly when the hash bit for their position is set. -/
def checksumByte (hash : HashBits) (low : GoStr) (i b : Nat) : Nat :=
  if decide (48 ≤ b ∧ b ≤ 57) then b else if hash low i then goToUpper b else b

/-- The lowercase body of an address: lowercase everything, then strip a
leading 0x (which an original 0X has become after lowercasing). -/
def lowBody (s : GoStr) : GoStr :=
  if (s.map goToLower).take 2 = [48, 120] then (s.map goToLower).drop 2
  else s.map goToLower

/-- Modelled from the spec: the EIP-55 checksummed form — lowercase the
input, strip an optional 0x prefix, re-case each hex digit from the hash
bits of the lowercase body, and prepend 0x.  A pure function of the
lowercase address bytes, as the spec requires.  This is the shape shared
by the missing eip.ToCheckSumAddress and utils.ToValidateAddress. -/
def eip55 (hash : HashBits) (address : GoStr) : GoStr :=
  48 :: 120 :: mapIdxFrom (checksumByte hash (lowBody address)) 0 (lowBody address)

/-- Modelled from the spec: eip.ToCheckSumAddress (EasySwapBase, not under
src/) — derives the checksummed canonical form; deterministic and pure, so
on the post-guard inputs it is embedded as always succeeding. -/
def ToCheckSumAddress (hash : HashBits) (address : GoStr) : GoStr × Option String :=
  (eip55 hash address, none)

/-- Modelled from the spec: utils.ToValidateAddress (this repository, not
under src/) — the second, independent validation pass over the same bytes,
an EIP-55 rewrite with its own hash-bit oracle. -/
def ToValidateAddress (hash : HashBits) (address : GoStr) : GoStr :=
  eip55 hash address

/-- src/common/address.go UnifyAddress, embedded line by line.  h1 is the
hash oracle of the checksum pass, h2 that of the validation pass.  Note
the source wraps the variable err — which is provably nil at that point —
in the mismatch branch, and errorsWrap none _ = none. -/
def UnifyAddress (h1 h2 : HashBits) (address : GoStr) : GoStr × Option String :=
  if address.length ≤ 2 ∨ isHexAddress address = false then
    ([], errorsNew "user address is illegal")
  else
    match ToCheckSumAddress h1 address with
    | (_, some e) => ([], errorsWrap (some e) "invalid address")
    | (addr, none) =>
      if addr ≠ ToValidateAddress h2 addr then
        ([], errorsWrap none "failed on unify address")
      else
        (addr, none)

/-- Hash-bit oracle that never uppercases (all-lowercase checksum). -/
def hashLow : HashBits := fun _ _ => false

/-- Hash-bit oracle that always uppercases every letter. -/
def hashUp : HashBits := fun _ _ => true

/-- 0x followed by forty lowercase a bytes. -/
def addrAs : GoStr := 48 :: 120 :: List.replicate 40 97

/-- Forty lowercase a bytes, no 0x prefix. -/
def addrBare : GoStr := List.replicate 40 97

/-- 0x followed by forty uppercase A bytes. -/
def addrAsUp : GoStr := 48 :: 120 :: List.replicate 40 65

/-- Lowercase-hex byte: a decimal digit or a lowercase hex letter. -/
def isLowHexP (b : Nat) : Prop := (48 ≤ b ∧ b ≤ 57) ∨ (97 ≤ b ∧ b ≤ 102)

/-- The spec's stable, machine-readable error kinds (section 7). -/
inductive AuthErr where
  | invalidAddressFormat
  | canonicalizationMismatch
  | challengeNotFound
  | signatureInvalid
  | malformedSignature
deriving DecidableEq, Repr

/-- Spec data model: a pending challenge. -/
structure Challenge where
  address : GoStr
  message : GoStr
  issuedAt : Nat
  expiresAt : Nat
deriving DecidableEq, Repr

/-- Spec data model: a signed-in session. -/
structure Session where
  address : GoStr
  token : GoStr
  createdAt : Nat
  expiresAt : Nat
deriving DecidableEq, Repr

/-- Modelled from the spec: the SessionStore key space — per canonical
address, a pending sub-key and a session sub-key. -/
structure Store where
  pending : GoStr → Option Challenge
  session : GoStr → Option Session

/-- The store with no entries. -/
def emptyStore : Store := ⟨fun _ => none, fun _ => none⟩

/-- Modelled from the spec: PutPending — overwrite any existing pending
challenge for the address. -/
def putPending (st : Store) (a : GoStr) (c : Challenge) : Store :=
  { st with pending := fun k => if k = a then some c else st.pending k }

/-- Modelled from the spec: GetPending — found=false if absent or expired;
an expired-but-not-yet-reaped entry is treated as absent. -/
def getPending (st : Store) (now : Nat) (a : GoStr) : Option Challenge :=
  match st.pending a with
  | some c => if now < c.expiresAt then some c else none
  | none => none

/-- Modelled from the spec: ConsumePending — atomically read and remove
the pending challenge; at most one caller can observe it. -/
def consumePending (st : Store) (now : Nat) (a : GoStr) :
    Option Challenge × Store :=
  match getPending st now a with
  | some c =>
    (some c, { st with pending := fun k => if k = a then none else st.pending k })
  | none => (none, st)

/-- Modelled from the spec: PutSession — overwrite any existing session. -/
def putSession (st : Store) (a : GoStr) (s : Session) : Store :=
  { st with session := fun k => if k = a then some s else st.session k }

/-- Modelled from the spec: GetSession with server-side expiry. -/
def getSession (st : Store) (now : Nat) (a : GoStr) : Option Session :=
  match st.session a with
  | some s => if now < s.expiresAt then some s else none
  | none => none

/-- Modelled from the spec: the fixed textual challenge template — nonce,
canonical address and issuance timestamp separated by spaces (byte 32).
The timestamp is rendered in decimal. -/
def mkLoginMessage (addr nonce : GoStr) (now : Nat) : GoStr :=
  nonce ++ 32 :: addr ++ 32 :: (Nat.toDigits 10 now).map Char.toNat

/-- Modelled from the spec: IssueChallenge (service layer, not under src/)
— canonicalize, build the message, supersede any pending challenge for the
address by overwriting the pending sub-key. -/
def issueChallenge (h1 h2 : HashBits) (st : Store) (now ttl : Nat)
    (nonce raw : GoStr) : Except AuthErr (Challenge × Store) :=
  match UnifyAddress h1 h2 raw with
  | (_, some _) => .error .invalidAddressFormat
  | (addr, none) =>
    let c : Challenge := ⟨addr, mkLoginMessage addr nonce now, now, now + ttl⟩
    .ok (c, putPending st addr c)

/-- Modelled from the spec: Login (service layer, not under src/) —
canonicalize, consume the pending challenge (absence, expiry or a message
that does not byte-match fail with ChallengeNotFound), verify the
signature, then store the session and return the token.  The resulting
store is returned alongside the outcome. -/
def login (h1 h2 : HashBits) (verify : GoStr → GoStr → GoStr → Bool)
    (st : Store) (now ttl : Nat) (token raw msg sig : GoStr) :
    Except AuthErr GoStr × Store :=
  match UnifyAddress h1 h2 raw with
  | (_, some _) => (.error .invalidAddressFormat, st)
  | (addr, none) =>
    match consumePending st now addr with
    | (none, st1) => (.error .challengeNotFound, st1)
    | (some c, st1) =>
      if msg ≠ c.message then (.error .challengeNotFound, st1)
      else if verify msg sig addr = false then (.error .signatureInvalid, st1)
      else (.ok token, putSession st1 addr ⟨addr, token, now, now + ttl⟩)

/-- Modelled from the spec: QueryStatus (service layer, not under src/) —
canonicalize, read the session, return the liveness boolean; a missing
session is a normal result, not an error. -/
def queryStatus (h1 h2 : HashBits) (st : Store) (now : Nat) (raw : GoStr) :
    Except AuthErr Bool :=
  match UnifyAddress h1 h2 raw with
  | (_, some _) => .error .invalidAddressFormat
  | (addr, none) => .ok (getSession st now addr).isSome

/-- An HTTP handler outcome: xhttp.Error or xhttp.OkJson. -/
inductive HResp (α : Type) where
  | errResp (msg : String)
  | okJson (v : α)
deriving DecidableEq, Repr

/-- src/api/v1 GetLoginMessageHandler: read the address path parameter,
reject the empty string, otherwise delegate to the service layer (passed
in as a function, as the handler holds it behind the service context). -/
def GetLoginMessageHandler {α : Type} (service : GoStr → Except String α)
    (address : GoStr) : HResp α :=
  if address = [] then .errResp "user address must not be empty"
  else
    match service address with
    | .error e => .errResp e
    | .ok v => .okJson v

/-- src/api/v1 GetSigStatusHandler: read the address path parameter,
reject the empty string, otherwise delegate to the service layer. -/
def GetSigStatusHandler {α : Type} (service : GoStr → Except String α)
    (userAddr : GoStr) : HResp α :=
  if userAddr = [] then .errResp "user address must not be empty"
  else
    match service userAddr with
    | .error e => .errResp e
    | .ok v => .okJson v

/-- Concatenation of a chunk sequence. -/
def joinL : List GoStr → GoStr
  | [] => []
  | c :: cs => c ++ joinL cs

/-- ioutil.ReadAll over io.TeeReader(body, buf) in RLog: the client body
arrives as a sequence of chunks; every chunk read is appended to the
accumulated result and tee-written to the buffer.  Returns (bytes read,
buffer contents); the buffer is then installed as the downstream request
body via ioutil.NopCloser. -/
def teeReadAllAux : List GoStr → GoStr → GoStr → GoStr × GoStr
  | [], acc, buf => (acc, buf)
  | c :: cs, acc, buf => teeReadAllAux cs (acc ++ c) (buf ++ c)

/-- The request side of RLog: bytes logged and bytes handed downstream. -/
def rlogRequest (chunks : List GoStr) : GoStr × GoStr :=
  teeReadAllAux chunks [] []

/-- BodyLogWriter.Write: append to the log buffer, then forward to the
underlying gin.ResponseWriter, returning the underlying writer's count
and error.  The underlying writer is abstract: a state of type σ and a
write function. -/
def blwWrite {σ : Type} (write : σ → GoStr → σ × Nat × Option String)
    (s : σ × GoStr) (b : GoStr) : (σ × GoStr) × Nat × Option String :=
  ((( write s.1 b).1, s.2 ++ b), (write s.1 b).2)

/-- BodyLogWriter.WriteString: byte-for-byte the same flow as Write — the
buffer's WriteString appends the same bytes and the underlying writer's
WriteString is forwarded the same bytes. -/
def blwWriteString {σ : Type} (write : σ → GoStr → σ × Nat × Option String)
    (s : σ × GoStr) (b : GoStr) : (σ × GoStr) × Nat × Option String :=
  ((( write s.1 b).1, s.2 ++ b), (write s.1 b).2)

/-- A sequence of writes sent directly to the underlying writer:
final state plus the list of (count, error) returns. -/
def writeAll {σ : Type} (write : σ → GoStr → σ × Nat × Option String) :
    σ → List GoStr → σ × List (Nat × Option String)
  | s, [] => (s, [])
  | s, b :: bs =>
    ((writeAll write (write s b).1 bs).1,
      (write s b).2 :: (writeAll write (write s b).1 bs).2)

/-- The same sequence of writes sent through BodyLogWriter. -/
def blwWriteAll {σ : Type} (write : σ → GoStr → σ × Nat × Option String) :
    σ × GoStr → List GoStr → (σ × GoStr) × List (Nat × Option String)
  | s, [] => (s, [])
  | s, b :: bs =>
    ((blwWriteAll write (blwWrite write s b).1 bs).1,
      (blwWrite write s b).2 :: (blwWriteAll write (blwWrite write s b).1 bs).2)

/-- A signature verifier that accepts everything (for witnesses). -/
def vTrueW : GoStr → GoStr → GoStr → Bool := fun _ _ _ => true

/-- A signature verifier that rejects everything (for witnesses). -/
def vFalseW : GoStr → GoStr → GoStr → Bool := fun _ _ _ => false

/-- A concrete challenge pending for addrAs, with message [5]. -/
def cW : Challenge := ⟨addrAs, [5], 0, 10⟩

/-- A store holding only cW as the pending challenge of addrAs. -/
def stPW : Store := putPending emptyStore addrAs cW

/-- stPW after its pending challenge has been consumed. -/
def stConsW : Store :=
  { stPW with pending := fun k => if k = addrAs then none else stPW.pending k }

/-- The store a successful login on stPW leaves behind. -/
def stAfterW : Store := putSession stConsW addrAs ⟨addrAs, [7], 1, 1 + 10⟩

/-- First concrete issued challenge for the C5 scenario. -/
def c1W : Challenge := ⟨addrAs, mkLoginMessage addrAs [1] 0, 0, 0 + 10⟩

/-- Second concrete issued challenge for the C5 scenario. -/
def c2W : Challenge := ⟨addrAs, mkLoginMessage addrAs [2] 5, 5, 5 + 10⟩

/-- Store after issuing c1W. -/
def st1W : Store := putPending emptyStore addrAs c1W

/-- Store after issuing c2W on top of st1W. -/
def st2W : Store := putPending st1W addrAs c2W

example : isHexAddress addrAs = true := by decide
example : isHexAddress addrBare = true := by decide
example : UnifyAddress hashLow hashLow addrAs = (addrAs, none) := by decide
example : UnifyAddress hashLow hashUp addrAs = ([], none) := by decide
example : UnifyAddress hashLow hashLow [48, 120] = ([], some "user address is illegal") := by decide

theorem goToLower_goToLower (b : Nat) : goToLower (goToLower b) = goToLower b := by
  unfold goToLower; split_ifs <;> omega

theorem goToLower_goToUpper (b : Nat) : goToLower (goToUpper b) = goToLower b := by
  unfold goToLower goToUpper; split_ifs <;> omega

theorem isHexChar_goToLower (b : Nat) : isHexChar (goToLower b) = isHexChar b := by
  unfold isHexChar goToLower
  split_ifs with h <;> (rw [decide_eq_decide]; try omega)

theorem isLowHexP_goToLower {b : Nat} (hb : isHexChar b = true) :
    isLowHexP (goToLower b) := by
  unfold isHexChar at hb
  rw [decide_eq_true_eq] at hb
  unfold isLowHexP goToLower
  split_ifs <;> omega

theorem goToLower_checksumByte (hash : HashBits) (low : GoStr) (i : Nat)
    {b : Nat} (hb : isLowHexP b) :
    goToLower (checksumByte hash low i b) = b := by
  unfold isLowHexP at hb
  unfold checksumByte goToUpper goToLower
  split_ifs <;> omega

theorem isHexChar_checksumByte (hash : HashBits) (low : GoStr) (i : Nat)
    {b : Nat} (hb : isLowHexP b) :
    isHexChar (checksumByte hash low i b) = true := by
  unfold isLowHexP at hb
  unfold checksumByte goToUpper isHexChar
  split_ifs <;> rw [decide_eq_true_eq] <;> omega

theorem mapIdxFrom_length (f : Nat → Nat → Nat) :
    ∀ (i : Nat) (l : GoStr), (mapIdxFrom f i l).length = l.length := by
  intro i l
  induction l generalizing i with
  | nil => rfl
  | cons b bs ih => simp [mapIdxFrom, ih]

theorem mapIdxFrom_map_goToLower (hash : HashBits) (low : GoStr) :
    ∀ (l : GoStr) (i : Nat), (∀ b ∈ l, isLowHexP b) →
    (mapIdxFrom (checksumByte hash low) i l).map goToLower = l := by
  intro l
  induction l with
  | nil => intro i _; rfl
  | cons b bs ih =>
    intro i hl
    simp only [mapIdxFrom, List.map_cons]
    rw [goToLower_checksumByte hash low i (hl b (by simp)),
      ih (i + 1) (fun x hx => hl x (by simp [hx]))]

theorem mapIdxFrom_all_hex (hash : HashBits) (low : GoStr) :
    ∀ (l : GoStr) (i : Nat), (∀ b ∈ l, isLowHexP b) →
    (mapIdxFrom (checksumByte hash low) i l).all isHexChar = true := by
  intro l
  induction l with
  | nil => intro i _; rfl
  | cons b bs ih =>
    intro i hl
    simp only [mapIdxFrom, List.all_cons, Bool.and_eq_true]
    exact ⟨isHexChar_checksumByte hash low i (hl b (by simp)),
      ih (i + 1) (fun x hx => hl x (by simp [hx]))⟩

theorem lowBody_spec {s : GoStr} (hs : isHexAddress s = true) :
    (lowBody s).length = 40 ∧ ∀ b ∈ lowBody s, isLowHexP b := by
  unfold isHexAddress at hs
  simp only [Bool.and_eq_true, beq_iff_eq] at hs
  by_cases hp : has0xPrefix s = true
  · rw [if_pos hp] at hs
    obtain ⟨hlen, hhex⟩ := hs
    match s, hp with
    | b0 :: b1 :: rest, hp =>
      unfold has0xPrefix at hp
      simp only [Bool.and_eq_true, Bool.or_eq_true, beq_iff_eq] at hp
      obtain ⟨hp0, hp1⟩ := hp
      have hb0 : goToLower b0 = 48 := by unfold goToLower; split_ifs <;> omega
      have hb1 : goToLower b1 = 120 := by
        unfold goToLower; rcases hp1 with h | h <;> split_ifs <;> omega
      have hbody : lowBody (b0 :: b1 :: rest) = rest.map goToLower := by
        unfold lowBody
        simp [hb0, hb1]
      simp only [List.drop_succ_cons, List.drop_zero] at hlen
      unfold isHexStr at hhex
      simp only [List.drop_succ_cons, List.drop_zero, Bool.and_eq_true] at hhex
      refine ⟨by simp [hbody, hlen], ?_⟩
      intro b hb
      rw [hbody] at hb
      obtain ⟨a, ha, rfl⟩ := List.mem_map.mp hb
      exact isLowHexP_goToLower (by
        have := hhex.2
        rw [List.all_eq_true] at this
        exact this a ha)
  · rw [if_neg hp] at hs
    obtain ⟨hlen, hhex⟩ := hs
    unfold isHexStr at hhex
    simp only [Bool.and_eq_true] at hhex
    have hall : ∀ a ∈ s, isHexChar a = true := by
      have := hhex.2
      rw [List.all_eq_true] at this
      exact this
    have hbody : lowBody s = s.map goToLower := by
      unfold lowBody
      match s, hlen with
      | b0 :: b1 :: rest, _ =>
        have h1 : isHexChar b1 = true := hall b1 (by simp)
        unfold isHexChar at h1
        rw [decide_eq_true_eq] at h1
        have : goToLower b1 ≠ 120 := by unfold goToLower; split_ifs <;> omega
        simp only [List.map_cons, List.take_succ_cons, List.take_zero]
        rw [if_neg]
        intro hcontra
        exact this (by
          have := List.cons.injEq (goToLower b0) _ 48 [120] ▸ hcontra
          simp at hcontra
          exact hcontra.2)
    refine ⟨by simp [hbody, hlen], ?_⟩
    intro b hb
    rw [hbody] at hb
    obtain ⟨a, ha, rfl⟩ := List.mem_map.mp hb
    exact isLowHexP_goToLower (hall a ha)

theorem isHexAddress_length {s : GoStr} (hs : isHexAddress s = true) :
    40 ≤ s.length := by
  unfold isHexAddress at hs
  simp only [Bool.and_eq_true, beq_iff_eq] at hs
  split at hs
  · have := hs.1
    have hd : (s.drop 2).length = s.length - 2 := List.length_drop 2 s
    omega
  · omega

theorem lowBody_eip55 (h1 : HashBits) {s : GoStr}
    (hs : ∀ b ∈ lowBody s, isLowHexP b) :
    lowBody (eip55 h1 s) = lowBody s := by
  show lowBody (48 :: 120 :: mapIdxFrom (checksumByte h1 (lowBody s)) 0 (lowBody s)) = _
  unfold lowBody
  simp only [List.map_cons]
  have h48 : goToLower 48 = 48 := by decide
  have h120 : goToLower 120 = 120 := by decide
  rw [h48, h120]
  simp only [List.take_succ_cons, List.take_zero, List.drop_succ_cons, List.drop_zero,
    if_pos rfl]
  exact mapIdxFrom_map_goToLower h1 (lowBody s) (lowBody s) 0 hs

theorem eip55_eip55 (h1 h2 : HashBits) {s : GoStr}
    (hs : ∀ b ∈ lowBody s, isLowHexP b) :
    eip55 h2 (eip55 h1 s) = eip55 h2 s := by
  conv_lhs => rw [eip55]
  rw [lowBody_eip55 h1 hs]
  rfl

theorem isHexAddress_eip55 (h : HashBits) {s : GoStr}
    (hs : isHexAddress s = true) :
    isHexAddress (eip55 h s) = true := by
  obtain ⟨hlen, hlow⟩ := lowBody_spec hs
  show isHexAddress (48 :: 120 :: mapIdxFrom (checksumByte h (lowBody s)) 0 (lowBody s)) = true
  unfold isHexAddress has0xPrefix
  simp only []
  have hpre : ((48 : Nat) == 48 && ((120 : Nat) == 120 || (120 : Nat) == 88)) = true := by decide
  rw [if_pos hpre]
  simp only [List.drop_succ_cons, List.drop_zero, Bool.and_eq_true, beq_iff_eq]
  constructor
  · rw [mapIdxFrom_length, hlen]
  · unfold isHexStr
    simp only [Bool.and_eq_true, beq_iff_eq]
    constructor
    · rw [mapIdxFrom_length, hlen]
    · exact mapIdxFrom_all_hex h (lowBody s) (lowBody s) 0 hlow

theorem eip55_length (h : HashBits) (s : GoStr) :
    (eip55 h s).length = 2 + (lowBody s).length := by
  unfold eip55
  simp [mapIdxFrom_length]
  omega

theorem unify_of_hex (h1 h2 : HashBits) {s : GoStr}
    (hs : isHexAddress s = true) :
    UnifyAddress h1 h2 s =
      if eip55 h1 s = eip55 h2 s then (eip55 h1 s, none) else ([], none) := by
  have hlen := isHexAddress_length hs
  unfold UnifyAddress
  rw [if_neg (by push_neg; exact ⟨by omega, by simp [hs]⟩)]
  show (if eip55 h1 s ≠ ToValidateAddress h2 (eip55 h1 s) then
    ([], errorsWrap none "failed on unify address") else (eip55 h1 s, none)) = _
  have hv : ToValidateAddress h2 (eip55 h1 s) = eip55 h2 s :=
    eip55_eip55 h1 h2 (lowBody_spec hs).2
  rw [hv]
  by_cases heq : eip55 h1 s = eip55 h2 s
  · rw [if_neg (by simpa using heq), if_pos heq]
  · rw [if_pos heq, if_neg heq]
    rfl

theorem map_goToLower_idem (s : GoStr) :
    (s.map goToLower).map goToLower = s.map goToLower := by
  induction s with
  | nil => rfl
  | cons b bs ih =>
    simp only [List.map_cons]
    rw [goToLower_goToLower, ih]

theorem map_goToLower_goToUpper (s : GoStr) :
    (s.map goToUpper).map goToLower = s.map goToLower := by
  induction s with
  | nil => rfl
  | cons b bs ih =>
    simp only [List.map_cons]
    rw [goToLower_goToUpper, ih]

theorem lowBody_map_goToLower (s : GoStr) :
    lowBody (s.map goToLower) = lowBody s := by
  unfold lowBody
  rw [map_goToLower_idem]

theorem eip55_map_goToLower (h : HashBits) (s : GoStr) :
    eip55 h (s.map goToLower) = eip55 h s := by
  unfold eip55
  rw [lowBody_map_goToLower]

theorem beq48_goToLower (b : Nat) : (goToLower b == 48) = (b == 48) := by
  rw [Bool.eq_iff_iff]
  simp only [beq_iff_eq]
  unfold goToLower
  split_ifs <;> omega

theorem beqX_goToLower (b : Nat) :
    (goToLower b == 120 || goToLower b == 88) = (b == 120 || b == 88) := by
  rw [Bool.eq_iff_iff]
  simp only [Bool.or_eq_true, beq_iff_eq]
  unfold goToLower
  split_ifs <;> omega

theorem has0xPrefix_map_goToLower (s : GoStr) :
    has0xPrefix (s.map goToLower) = has0xPrefix s := by
  match s with
  | [] => rfl
  | [b0] => rfl
  | b0 :: b1 :: rest =>
    show (goToLower b0 == 48 && (goToLower b1 == 120 || goToLower b1 == 88)) = _
    rw [beq48_goToLower, beqX_goToLower]
    rfl

theorem isHexStr_map_goToLower (s : GoStr) :
    isHexStr (s.map goToLower) = isHexStr s := by
  unfold isHexStr
  rw [List.length_map, List.all_map]
  have hf : (isHexChar ∘ goToLower) = isHexChar := funext isHexChar_goToLower
  rw [hf]

theorem isHexAddress_map_goToLower (s : GoStr) :
    isHexAddress (s.map goToLower) = isHexAddress s := by
  unfold isHexAddress
  rw [has0xPrefix_map_goToLower]
  cases hb : has0xPrefix s
  · rw [if_neg (by simp), if_neg (by simp)]
    dsimp only
    rw [isHexStr_map_goToLower, List.length_map]
  · rw [if_pos rfl, if_pos rfl]
    dsimp only
    rw [← List.map_drop, isHexStr_map_goToLower, List.length_map]

theorem unify_map_goToLower (h1 h2 : HashBits) (s : GoStr) :
    UnifyAddress h1 h2 (s.map goToLower) = UnifyAddress h1 h2 s := by
  unfold UnifyAddress ToCheckSumAddress
  rw [List.length_map, isHexAddress_map_goToLower, eip55_map_goToLower]

theorem unify_mismatch_general (h1 h2 : HashBits) {s : GoStr}
    (hs : isHexAddress s = true) (hne : eip55 h1 s ≠ eip55 h2 s) :
    UnifyAddress h1 h2 s = ([], none) := by
  rw [unify_of_hex h1 h2 hs, if_neg hne]

/-- C1: on an input whose checksummed address differs from the second
validation pass, UnifyAddress does NOT return a non-nil error: the guard
passes, the two passes disagree, and the function returns the empty
address together with a nil error, because the source wraps the variable
err — which is nil at that point — and pkg/errors Wrap(nil, msg) = nil.
This refutes the claim that every mismatching input yields a non-nil
error; the claim matches the code's evident intent (the branch exists
only to report the mismatch), so the code is the bug.  The two checksum
passes are spec-modelled (EIP-55 shape) and instantiated here with
disagreeing hash-bit oracles, the asymmetric-bug scenario the spec's
double check is designed for. -/
theorem claim_C1_mismatch_yields_nil_error :
    2 < addrAs.length ∧ isHexAddress addrAs = true ∧
    (ToCheckSumAddress hashLow addrAs).1 ≠
      ToValidateAddress hashUp (ToCheckSumAddress hashLow addrAs).1 ∧
    UnifyAddress hashLow hashUp addrAs = ([], none) := by decide

/-- C2 counterexample: a bare string of forty hex digits with no 0x
prefix is not rejected — UnifyAddress succeeds on it (go-ethereum's
IsHexAddress also accepts unprefixed 40-digit hex), refuting the part of
the claim that says it succeeds only on 0x-prefixed hex strings. -/
theorem claim_C2_counterexample :
    has0xPrefix addrBare = false ∧
    UnifyAddress hashLow hashLow addrBare = (addrAs, none) := by decide

/-- C2 amended: UnifyAddress rejects with a non-nil error every input of
length at most 2 and every input failing hex-address syntax; when the two
checksum passes are the same algorithm (the code's intent), it succeeds
exactly on hex-address-syntax inputs — forty hex digits with an OPTIONAL
0x or 0X prefix, the prefix not being required. -/
theorem claim_C2_rejects_malformed :
    (∀ (h1 h2 : HashBits) (s : GoStr), s.length ≤ 2 ∨ isHexAddress s = false →
      UnifyAddress h1 h2 s = ([], some "user address is illegal")) ∧
    (∀ (h : HashBits) (s : GoStr), isHexAddress s = true →
      UnifyAddress h h s = (eip55 h s, none)) := by
  constructor
  · intro h1 h2 s hg
    unfold UnifyAddress
    rw [if_pos hg]
    rfl
  · intro h s hs
    rw [unify_of_hex h h hs, if_pos rfl]

/-- Witness for the C2 amended theorem at concrete inputs. -/
theorem claim_C2_rejects_malformed_witness :
    UnifyAddress hashLow hashUp [48, 120] = ([], some "user address is illegal") ∧
    UnifyAddress hashLow hashLow addrBare = (eip55 hashLow addrBare, none) :=
  ⟨claim_C2_rejects_malformed.1 hashLow hashUp [48, 120] (by decide),
   claim_C2_rejects_malformed.2 hashLow addrBare (by decide)⟩

/-- C3: canonicalization is idempotent — whenever UnifyAddress succeeds
(nil error), applying it to its own output succeeds and returns the same
string.  Stated with the two checksum passes running the same algorithm,
which is what the code intends and the spec's double check presupposes. -/
theorem claim_C3_idempotent (h : HashBits) (x y : GoStr)
    (hx : UnifyAddress h h x = (y, none)) :
    UnifyAddress h h y = (y, none) := by
  by_cases hg : x.length ≤ 2 ∨ isHexAddress x = false
  · unfold UnifyAddress at hx
    rw [if_pos hg] at hx
    simp [errorsNew] at hx
  · push_neg at hg
    have hhex : isHexAddress x = true := by
      rcases Bool.eq_false_or_eq_true (isHexAddress x) with htrue | hfalse
      · exact htrue
      · exact absurd hfalse hg.2
    rw [unify_of_hex h h hhex, if_pos rfl] at hx
    have hy : y = eip55 h x := by
      have := congrArg Prod.fst hx
      simpa using this.symm
    subst hy
    rw [unify_of_hex h h (isHexAddress_eip55 h hhex), if_pos rfl,
      eip55_eip55 h h (lowBody_spec hhex).2]

/-- Witness for C3: the mixed-case address 0xAA...A canonicalizes to
0xaa...a under the all-lowercase oracle, and re-canonicalizing that
output is a fixed point. -/
theorem claim_C3_idempotent_witness :
    UnifyAddress hashLow hashLow addrAs = (addrAs, none) :=
  claim_C3_idempotent hashLow addrAsUp addrAs (by decide)

/-- C4: canonicalization is case-invariant — two inputs that agree after
lowercasing (i.e. differ only in letter case) canonicalize identically,
whatever the two hash oracles are; in particular the lowercased and the
uppercased versions of any string canonicalize identically. -/
theorem claim_C4_case_invariant :
    (∀ (h1 h2 : HashBits) (s t : GoStr), s.map goToLower = t.map goToLower →
      UnifyAddress h1 h2 s = UnifyAddress h1 h2 t) ∧
    (∀ (h1 h2 : HashBits) (a : GoStr),
      UnifyAddress h1 h2 (a.map goToLower) = UnifyAddress h1 h2 (a.map goToUpper)) := by
  constructor
  · intro h1 h2 s t hst
    rw [← unify_map_goToLower h1 h2 s, hst, unify_map_goToLower]
  · intro h1 h2 a
    rw [← unify_map_goToLower h1 h2 (a.map goToUpper), map_goToLower_goToUpper]

/-- Witness for C4: the all-uppercase and all-lowercase spellings of the
same address canonicalize identically under disagreeing oracles. -/
theorem claim_C4_case_invariant_witness :
    UnifyAddress hashLow hashUp addrAsUp = UnifyAddress hashLow hashUp addrAs :=
  claim_C4_case_invariant.1 hashLow hashUp addrAsUp addrAs (by decide)

theorem putPending_pending_self (st : Store) (a : GoStr) (c : Challenge) :
    (putPending st a c).pending a = some c := by
  unfold putPending
  simp

theorem putSession_pending (st : Store) (a : GoStr) (s : Session) :
    (putSession st a s).pending = st.pending := rfl

theorem getPending_erase (st : Store) (now' : Nat) (a : GoStr) :
    getPending { st with pending := fun k => if k = a then none else st.pending k }
      now' a = none := by
  unfold getPending
  simp

theorem consumePending_of_none {st : Store} {now : Nat} {a : GoStr}
    (h : getPending st now a = none) :
    consumePending st now a = (none, st) := by
  unfold consumePending
  rw [h]

theorem consumePending_of_some {st : Store} {now : Nat} {a : GoStr}
    {c : Challenge} (h : getPending st now a = some c) :
    consumePending st now a =
      (some c,
        { st with pending := fun k => if k = a then none else st.pending k }) := by
  unfold consumePending
  rw [h]

theorem login_pending_mismatch (h1 h2 : HashBits)
    (verify : GoStr → GoStr → GoStr → Bool) (st : Store) (now ttl : Nat)
    (tok raw msg sig addr : GoStr)
    (hu : UnifyAddress h1 h2 raw = (addr, none))
    (hp : ∀ c, getPending st now addr = some c → msg ≠ c.message) :
    (login h1 h2 verify st now ttl tok raw msg sig).1 =
      .error .challengeNotFound := by
  unfold login
  rw [hu]
  dsimp only
  cases hg : getPending st now addr with
  | none => rw [consumePending_of_none hg]
  | some c =>
    rw [consumePending_of_some hg]
    dsimp only
    rw [if_pos (hp c hg)]

theorem login_no_pending (h1 h2 : HashBits)
    (verify : GoStr → GoStr → GoStr → Bool) (st : Store) (now ttl : Nat)
    (tok raw msg sig addr : GoStr)
    (hu : UnifyAddress h1 h2 raw = (addr, none))
    (hp : getPending st now addr = none) :
    (login h1 h2 verify st now ttl tok raw msg sig).1 =
      .error .challengeNotFound := by
  unfold login
  rw [hu]
  dsimp only
  rw [consumePending_of_none hp]

theorem issueChallenge_ok (h1 h2 : HashBits) {st : Store} {now ttl : Nat}
    {nonce raw : GoStr} {c : Challenge} {st' : Store}
    (hi : issueChallenge h1 h2 st now ttl nonce raw = .ok (c, st')) :
    ∃ addr, UnifyAddress h1 h2 raw = (addr, none) ∧
      c = ⟨addr, mkLoginMessage addr nonce now, now, now + ttl⟩ ∧
      st' = putPending st addr c := by
  unfold issueChallenge at hi
  cases hu : UnifyAddress h1 h2 raw with
  | mk addr err =>
    rw [hu] at hi
    cases err with
    | some e => simp at hi
    | none =>
      simp only [Except.ok.injEq, Prod.mk.injEq] at hi
      obtain ⟨hc, hst⟩ := hi
      refine ⟨addr, rfl, hc.symm, ?_⟩
      rw [← hst, hc]

/-- C5: supersession — after a second challenge is issued for the same
address, a Login presenting the first (superseded) challenge's message
fails with ChallengeNotFound: the second issue overwrote the single
pending slot, so the consumed challenge's message no longer matches (and
if the new challenge has expired, the slot reads as absent — either way
ChallengeNotFound). -/
theorem claim_C5_supersession (h1 h2 : HashBits)
    (verify : GoStr → GoStr → GoStr → Bool) (st : Store)
    (t1 t2 now ttl1 ttl2 ttl : Nat) (n1 n2 raw tok sig : GoStr)
    (c1 c2 : Challenge) (st1 st2 : Store)
    (hi1 : issueChallenge h1 h2 st t1 ttl1 n1 raw = .ok (c1, st1))
    (hi2 : issueChallenge h1 h2 st1 t2 ttl2 n2 raw = .ok (c2, st2))
    (hne : c1.message ≠ c2.message) :
    (login h1 h2 verify st2 now ttl tok raw c1.message sig).1 =
      .error .challengeNotFound := by
  obtain ⟨a1, hu1, -, -⟩ := issueChallenge_ok h1 h2 hi1
  obtain ⟨a2, hu2, -, hst2⟩ := issueChallenge_ok h1 h2 hi2
  have haddr : a1 = a2 := by
    rw [hu1] at hu2
    exact ((Prod.mk.injEq _ _ _ _).mp hu2).1
  subst haddr
  apply login_pending_mismatch h1 h2 verify st2 now ttl tok raw c1.message sig
    a1 hu1
  intro c hc
  have hpend : st2.pending a1 = some c2 := by
    rw [hst2]
    exact putPending_pending_self st1 a1 c2
  unfold getPending at hc
  rw [hpend] at hc
  dsimp only at hc
  by_cases hexp : now < c2.expiresAt
  · rw [if_pos hexp] at hc
    injection hc with hcc
    subst hcc
    exact hne
  · rw [if_neg hexp] at hc
    cases hc

/-- C6: challenges are single-use — once a Login has succeeded (and so
consumed the pending challenge), a second Login with the same message and
signature fails with ChallengeNotFound; and ConsumePending removes the
challenge, so a second consume finds nothing — of two Logins racing for
one pending challenge, only the one that consumes first can succeed. -/
theorem claim_C6_single_use :
    (∀ (h1 h2 : HashBits) (verify : GoStr → GoStr → GoStr → Bool)
      (st : Store) (now ttl now' ttl' : Nat) (tok raw msg sig tok' r : GoStr)
      (st' : Store),
      login h1 h2 verify st now ttl tok raw msg sig = (.ok r, st') →
      (login h1 h2 verify st' now' ttl' tok' raw msg sig).1 =
        .error .challengeNotFound) ∧
    (∀ (st : Store) (now now' : Nat) (a : GoStr) (c : Challenge) (st1 : Store),
      consumePending st now a = (some c, st1) →
      (consumePending st1 now' a).1 = none) := by
  constructor
  · intro h1 h2 verify st now ttl now' ttl' tok raw msg sig tok' r st' hl
    unfold login at hl
    cases hu : UnifyAddress h1 h2 raw with
    | mk addr err =>
      rw [hu] at hl
      cases err with
      | some e => simp at hl
      | none =>
        dsimp only at hl
        cases hg : getPending st now addr with
        | none =>
          rw [consumePending_of_none hg] at hl
          simp at hl
        | some c =>
          rw [consumePending_of_some hg] at hl
          dsimp only at hl
          by_cases hm : msg ≠ c.message
          · rw [if_pos hm] at hl
            simp at hl
          · rw [if_neg hm] at hl
            by_cases hv : verify msg sig addr = false
            · rw [if_pos hv] at hl
              simp at hl
            · rw [if_neg hv] at hl
              simp only [Prod.mk.injEq] at hl
              have hpend : st'.pending addr = none := by
                rw [← hl.2]
                rw [putSession_pending]
                simp
              apply login_no_pending h1 h2 verify st' now' ttl' tok' raw msg sig
                addr hu
              unfold getPending
              rw [hpend]
  · intro st now now' a c st1 hc
    cases hg : getPending st now a with
    | none =>
      rw [consumePending_of_none hg] at hc
      simp at hc
    | some c0 =>
      rw [consumePending_of_some hg] at hc
      simp only [Prod.mk.injEq] at hc
      obtain ⟨-, hst1⟩ := hc
      rw [← hst1]
      rw [consumePending_of_none (getPending_erase st now' a)]

/-- Witness for C5: issue two challenges for addrAs, then log in with the
first challenge's message — ChallengeNotFound. -/
theorem claim_C5_supersession_witness :
    (login hashLow hashLow vTrueW st2W 6 10 [7] addrAs c1W.message [9]).1 =
      .error .challengeNotFound :=
  claim_C5_supersession hashLow hashLow vTrueW emptyStore 0 5 6 10 10 10
    [1] [2] addrAs [7] [9] c1W c2W st1W st2W rfl rfl (by decide)

/-- Witness for C6: after a successful login consumed cW, the replayed
login fails with ChallengeNotFound; and re-consuming after a consume
observes nothing. -/
theorem claim_C6_single_use_witness :
    (login hashLow hashLow vTrueW stAfterW 2 10 [8] addrAs [5] [9]).1 =
        .error .challengeNotFound ∧
    (consumePending stConsW 2 addrAs).1 = none :=
  ⟨claim_C6_single_use.1 hashLow hashLow vTrueW stPW 1 10 2 10 [7] addrAs [5]
      [9] [8] [7] stAfterW rfl,
   claim_C6_single_use.2 stPW 1 2 addrAs cW stConsW rfl⟩

/-- C7: the spec's Login checks its steps in a fixed order with a
distinct error per step: a failing canonicalization yields
InvalidAddressFormat with the store untouched; an absent, expired or
message-mismatched pending challenge yields ChallengeNotFound whatever
the verifier and signature are (so no signature verification can have
influenced it); a failing signature check yields SignatureInvalid with
the session map untouched; when all three pass, the token is returned
and the session is stored under the canonical address. -/
theorem claim_C7_login_order :
    (∀ (h1 h2 : HashBits) (verify : GoStr → GoStr → GoStr → Bool) (st : Store)
      (now ttl : Nat) (tok raw msg sig : GoStr) (e : String),
      (UnifyAddress h1 h2 raw).2 = some e →
      login h1 h2 verify st now ttl tok raw msg sig =
        (.error .invalidAddressFormat, st)) ∧
    (∀ (h1 h2 : HashBits) (st : Store) (now ttl : Nat) (raw msg addr : GoStr),
      UnifyAddress h1 h2 raw = (addr, none) →
      (getPending st now addr = none ∨
        ∃ c, getPending st now addr = some c ∧ msg ≠ c.message) →
      ∀ (verify : GoStr → GoStr → GoStr → Bool) (sig tok : GoStr),
        (login h1 h2 verify st now ttl tok raw msg sig).1 =
          .error .challengeNotFound) ∧
    (∀ (h1 h2 : HashBits) (verify : GoStr → GoStr → GoStr → Bool) (st : Store)
      (now ttl : Nat) (tok raw msg sig addr : GoStr) (c : Challenge),
      UnifyAddress h1 h2 raw = (addr, none) →
      getPending st now addr = some c →
      msg = c.message →
      verify msg sig addr = false →
      (login h1 h2 verify st now ttl tok raw msg sig).1 =
          .error .signatureInvalid ∧
        ((login h1 h2 verify st now ttl tok raw msg sig).2).session =
          st.session) ∧
    (∀ (h1 h2 : HashBits) (verify : GoStr → GoStr → GoStr → Bool) (st : Store)
      (now ttl : Nat) (tok raw msg sig addr : GoStr) (c : Challenge),
      UnifyAddress h1 h2 raw = (addr, none) →
      getPending st now addr = some c →
      msg = c.message →
      verify msg sig addr = true →
      (login h1 h2 verify st now ttl tok raw msg sig).1 = .ok tok ∧
        ((login h1 h2 verify st now ttl tok raw msg sig).2).session addr =
          some ⟨addr, tok, now, now + ttl⟩) := by
  refine ⟨?_, ?_, ?_, ?_⟩
  · intro h1 h2 verify st now ttl tok raw msg sig e hu
    unfold login
    cases hu' : UnifyAddress h1 h2 raw with
    | mk addr err =>
      rw [hu'] at hu
      cases err with
      | some e' => rfl
      | none => simp at hu
  · intro h1 h2 st now ttl raw msg addr hu hp verify sig tok
    rcases hp with hnone | ⟨c, hc, hm⟩
    · exact login_no_pending h1 h2 verify st now ttl tok raw msg sig addr hu hnone
    · apply login_pending_mismatch h1 h2 verify st now ttl tok raw msg sig addr hu
      intro c' hc'
      rw [hc] at hc'
      injection hc' with h'
      subst h'
      exact hm
  · intro h1 h2 verify st now ttl tok raw msg sig addr c hu hg hm hv
    unfold login
    rw [hu]
    dsimp only
    rw [consumePending_of_some hg]
    dsimp only
    rw [if_neg (by simp [hm]), if_pos hv]
    exact ⟨rfl, rfl⟩
  · intro h1 h2 verify st now ttl tok raw msg sig addr c hu hg hm hv
    unfold login
    rw [hu]
    dsimp only
    rw [consumePending_of_some hg]
    dsimp only
    rw [if_neg (by simp [hm]), if_neg (by simp [hv])]
    refine ⟨rfl, ?_⟩
    unfold putSession
    simp

/-- Witness for C7, one concrete scenario per step. -/
theorem claim_C7_login_order_witness :
    login hashLow hashUp vTrueW emptyStore 0 10 [7] [] [5] [9] =
        (.error .invalidAddressFormat, emptyStore) ∧
    (login hashLow hashLow vTrueW emptyStore 0 10 [7] addrAs [5] [9]).1 =
        .error .challengeNotFound ∧
    ((login hashLow hashLow vFalseW stPW 1 10 [7] addrAs [5] [9]).1 =
        .error .signatureInvalid ∧
      ((login hashLow hashLow vFalseW stPW 1 10 [7] addrAs [5] [9]).2).session =
        stPW.session) ∧
    ((login hashLow hashLow vTrueW stPW 1 10 [7] addrAs [5] [9]).1 = .ok [7] ∧
      ((login hashLow hashLow vTrueW stPW 1 10 [7] addrAs [5] [9]).2).session
          addrAs = some ⟨addrAs, [7], 1, 1 + 10⟩) :=
  ⟨claim_C7_login_order.1 hashLow hashUp vTrueW emptyStore 0 10 [7] [] [5] [9]
      "user address is illegal" (by decide),
   claim_C7_login_order.2.1 hashLow hashLow emptyStore 0 10 addrAs [5] addrAs
      (by decide) (Or.inl rfl) vTrueW [9] [7],
   claim_C7_login_order.2.2.1 hashLow hashLow vFalseW stPW 1 10 [7] addrAs [5]
      [9] addrAs cW (by decide) rfl rfl rfl,
   claim_C7_login_order.2.2.2 hashLow hashLow vTrueW stPW 1 10 [7] addrAs [5]
      [9] addrAs cW (by decide) rfl rfl rfl⟩

/-- C8: QueryStatus on a well-formed address with no live session is not
an error — it returns the normal result false. -/
theorem claim_C8_status_no_session (h1 h2 : HashBits) (st : Store) (now : Nat)
    (raw addr : GoStr)
    (hu : UnifyAddress h1 h2 raw = (addr, none))
    (hs : getSession st now addr = none) :
    queryStatus h1 h2 st now raw = .ok false := by
  unfold queryStatus
  rw [hu]
  dsimp only
  rw [hs]
  rfl

/-- Witness for C8: the empty store holds no session for addrAs. -/
theorem claim_C8_status_no_session_witness :
    queryStatus hashLow hashLow emptyStore 0 addrAs = .ok false :=
  claim_C8_status_no_session hashLow hashLow emptyStore 0 addrAs addrAs
    (by decide) rfl

/-- C9: when the address path parameter is the empty string, both
GetLoginMessageHandler and GetSigStatusHandler return an error response
immediately, and the service layer is never invoked: the handler's
outcome is identical whatever service function is plugged in. -/
theorem claim_C9_empty_address_no_service_call :
    (∀ (α : Type) (svc1 svc2 : GoStr → Except String α),
      GetLoginMessageHandler svc1 [] =
          .errResp "user address must not be empty" ∧
      GetLoginMessageHandler svc1 [] = GetLoginMessageHandler svc2 []) ∧
    (∀ (α : Type) (svc1 svc2 : GoStr → Except String α),
      GetSigStatusHandler svc1 [] =
          .errResp "user address must not be empty" ∧
      GetSigStatusHandler svc1 [] = GetSigStatusHandler svc2 []) := by
  constructor <;> intro α svc1 svc2 <;> exact ⟨rfl, rfl⟩

theorem teeReadAllAux_spec (chunks : List GoStr) :
    ∀ (acc buf : GoStr),
      teeReadAllAux chunks acc buf =
        (acc ++ joinL chunks, buf ++ joinL chunks) := by
  induction chunks with
  | nil =>
    intro acc buf
    simp [teeReadAllAux, joinL]
  | cons c cs ih =>
    intro acc buf
    simp [teeReadAllAux, joinL, ih, List.append_assoc]

/-- C10: the RLog middleware only observes.  On the request side, the
bytes handed to the downstream handler (the tee buffer installed as the
new body) are exactly the bytes received from the client, and the logged
copy equals them too.  On the response side, a sequence of writes pushed
through BodyLogWriter reaches the underlying response writer exactly as
if written directly — same final underlying state, same returned
(count, error) pairs — while the log buffer accumulates precisely the
written bytes; WriteString follows the same byte flow as Write. -/
theorem claim_C10_rlog_observation_only :
    (∀ chunks : List GoStr,
      rlogRequest chunks = (joinL chunks, joinL chunks)) ∧
    (∀ (σ : Type) (write : σ → GoStr → σ × Nat × Option String)
      (s : σ) (buf : GoStr) (bs : List GoStr),
      blwWriteAll write (s, buf) bs =
        (((writeAll write s bs).1, buf ++ joinL bs),
          (writeAll write s bs).2)) ∧
    (∀ (σ : Type) (write : σ → GoStr → σ × Nat × Option String)
      (s : σ) (buf b : GoStr),
      blwWriteString write (s, buf) b = blwWrite write (s, buf) b ∧
      blwWrite write (s, buf) b =
        (((write s b).1, buf ++ b), (write s b).2)) := by
  refine ⟨?_, ?_, ?_⟩
  · intro chunks
    unfold rlogRequest
    rw [teeReadAllAux_spec]
    simp
  · intro σ write s buf bs
    induction bs generalizing s buf with
    | nil => simp [blwWriteAll, writeAll, joinL]
    | cons b bs ih =>
      simp [blwWriteAll, writeAll, blwWrite, joinL, ih, List.append_assoc]
  · intro σ write s buf b
    exact ⟨rfl, rfl⟩

end EasySwap
